import Mathlib

/-!
Verification of the fp-go `v2/urfave/cli` layer and the optics (Lens/Prism)
core it is built on.

Embedding conventions:
* Go machine integers (`int`, `int64`, `time.Duration` = int64 nanoseconds)
  carry no arithmetic anywhere in the verified code — they are only stored and
  retrieved — so they are embedded as `Int`.
* Go `float64` values are likewise only stored and retrieved, never computed
  with; a value is represented by its bit pattern (`Float64Bits`).
* A Go `error` interface value is `Option ErrorMsg`: `none` is the nil error.
* The urfave/cli `Flag` interface with its concrete variants (`*StringFlag`,
  `*BoolFlag`, ...) is a sum type; `Flag.Get` models the v3
  `FlagBase.Get() any` method, which returns the typed current value
  (the default `Value` for a freshly constructed flag). A Go type assertion
  `v, ok := x.(T)` is a match on the dynamic-value sum `GoValue`.
-/

namespace FpGo

/-- Bit pattern of a Go `float64`. The code under verification only stores and
retrieves float64 values, never computes with them, so the bit-level carrier is
a faithful embedding. -/
structure Float64Bits where
  bits : Nat
deriving DecidableEq, Repr

/-- Dynamic value (Go `any`) as returned by `Flag.Get()`: one constructor per
Go dynamic type that occurs in `flag.go`'s type assertions. Distinct Go types
(`int` vs `int64` vs `time.Duration`) are distinct constructors, exactly as
Go's type assertions distinguish them. -/
inductive GoValue where
  | ofString (s : String)
  | ofBool (b : Bool)
  | ofInt (n : Int)
  | ofInt64 (n : Int)
  | ofFloat64 (x : Float64Bits)
  | ofDuration (d : Int)
  | ofStringSlice (ss : List String)
deriving DecidableEq, Repr

/-- The urfave/cli `Flag` interface, restricted to the concrete variants the
verified code constructs and inspects. Each carries the `Name` and `Value`
fields set by the code under `src/`. -/
inductive Flag where
  | stringFlag (name : String) (value : String)
  | boolFlag (name : String) (value : Bool)
  | intFlag (name : String) (value : Int)
  | int64Flag (name : String) (value : Int)
  | float64Flag (name : String) (value : Float64Bits)
  | durationFlag (name : String) (value : Int)
  | stringSliceFlag (name : String) (value : List String)
deriving DecidableEq, Repr

/-- Model of urfave/cli v3 `Flag.Get() any`: returns the flag's typed current
value (for a freshly constructed flag, the default `Value`). -/
def Flag.Get : Flag → GoValue
  | .stringFlag _ v => .ofString v
  | .boolFlag _ v => .ofBool v
  | .intFlag _ v => .ofInt v
  | .int64Flag _ v => .ofInt64 v
  | .float64Flag _ v => .ofFloat64 v
  | .durationFlag _ v => .ofDuration v
  | .stringSliceFlag _ v => .ofStringSlice v

/-- Runtime variant tag of a `Flag`, used to state variant-mismatch claims. -/
inductive FlagVariant where
  | str
  | boolean
  | int
  | int64
  | float64
  | duration
  | strSlice
deriving DecidableEq, Repr

/-- The variant a `Flag` value belongs to. -/
def Flag.variant : Flag → FlagVariant
  | .stringFlag _ _ => .str
  | .boolFlag _ _ => .boolean
  | .intFlag _ _ => .int
  | .int64Flag _ _ => .int64
  | .float64Flag _ _ => .float64
  | .durationFlag _ _ => .duration
  | .stringSliceFlag _ _ => .strSlice

/-- Modelled from the spec: the `Prism` type of `optics/prism` (not under
`src/`; only its callers are). Per §3 of the spec it wraps `getOption`,
`reverseGet` and a diagnostic name used only for messages. -/
structure Prism (S A : Type) where
  getOption : S → Option A
  reverseGet : A → S
  name : String

/-- Modelled from the spec: `MakePrismWithName` of `optics/prism` (§4.2
`makePrism(getOption, reverseGet, name?)`) wraps the two functions and the
name into a `Prism`. -/
def MakePrismWithName (g : S → Option A) (r : A → S) (n : String) :
    Prism S A :=
  ⟨g, r, n⟩

/-- `AsString` from `flag.go`: prism focusing the string value of a `Flag`. -/
def AsString : Prism Flag String :=
  MakePrismWithName
    (fun f =>
      match f.Get with
      | .ofString s => some s
      | _ => none)
    (fun s => Flag.stringFlag "" s)
    "AsStringFlag"

/-- `AsBool` from `flag.go`: prism focusing the bool value of a `Flag`. -/
def AsBool : Prism Flag Bool :=
  MakePrismWithName
    (fun f =>
      match f.Get with
      | .ofBool b => some b
      | _ => none)
    (fun b => Flag.boolFlag "" b)
    "AsBoolFlag"

/-- `AsInt` from `flag.go`: prism focusing the int value of a `Flag`. -/
def AsInt : Prism Flag Int :=
  MakePrismWithName
    (fun f =>
      match f.Get with
      | .ofInt n => some n
      | _ => none)
    (fun n => Flag.intFlag "" n)
    "AsIntFlag"

/-- `AsInt64` from `flag.go`: prism focusing the int64 value of a `Flag`. -/
def AsInt64 : Prism Flag Int :=
  MakePrismWithName
    (fun f =>
      match f.Get with
      | .ofInt64 n => some n
      | _ => none)
    (fun n => Flag.int64Flag "" n)
    "AsInt64Flag"

/-- `AsFloat64` from `flag.go`: prism focusing the float64 value of a `Flag`. -/
def AsFloat64 : Prism Flag Float64Bits :=
  MakePrismWithName
    (fun f =>
      match f.Get with
      | .ofFloat64 x => some x
      | _ => none)
    (fun x => Flag.float64Flag "" x)
    "AsFloat64Flag"

/-- `AsDuration` from `flag.go`: prism focusing the `time.Duration` value of a
`Flag`. -/
def AsDuration : Prism Flag Int :=
  MakePrismWithName
    (fun f =>
      match f.Get with
      | .ofDuration d => some d
      | _ => none)
    (fun d => Flag.durationFlag "" d)
    "AsDurationFlag"

/-- `AsStringSlice` from `flag.go`: prism focusing the `[]string` value of a
`Flag`. -/
def AsStringSlice : Prism Flag (List String) :=
  MakePrismWithName
    (fun f =>
      match f.Get with
      | .ofStringSlice ss => some ss
      | _ => none)
    (fun ss => Flag.stringSliceFlag "" ss)
    "AsStringSliceFlag"

/-- Interface model of the urfave/cli v3 `*Command` as consumed by `flag.go`
and `action.go`: the verified code only calls `IsSet(name)` and the typed
current-value accessors `String(name)`, `Bool(name)`, `Int(name)`,
`Int64(name)`, `Float64(name)`, `Duration(name)`, `StringSlice(name)`.
Each accessor is a field (`StringVal` models the Go method `String`, and so
on); nothing else of the external `Command` is observable to this code. -/
structure Command where
  IsSet : String → Bool
  StringVal : String → String
  BoolVal : String → Bool
  IntVal : String → Int
  Int64Val : String → Int
  Float64Val : String → Float64Bits
  DurationVal : String → Int
  StringSliceVal : String → List String

/-- `GetString` from `flag.go`: `Some(cmd.String(name))` when the flag was
explicitly set, `None` otherwise. -/
def GetString (name : String) : Command → Option String := fun cmd =>
  if cmd.IsSet name then some (cmd.StringVal name) else none

/-- `GetBool` from `flag.go`. -/
def GetBool (name : String) : Command → Option Bool := fun cmd =>
  if cmd.IsSet name then some (cmd.BoolVal name) else none

/-- `GetInt` from `flag.go`. -/
def GetInt (name : String) : Command → Option Int := fun cmd =>
  if cmd.IsSet name then some (cmd.IntVal name) else none

/-- `GetInt64` from `flag.go`. -/
def GetInt64 (name : String) : Command → Option Int := fun cmd =>
  if cmd.IsSet name then some (cmd.Int64Val name) else none

/-- `GetFloat64` from `flag.go`. -/
def GetFloat64 (name : String) : Command → Option Float64Bits := fun cmd =>
  if cmd.IsSet name then some (cmd.Float64Val name) else none

/-- `GetDuration` from `flag.go`. -/
def GetDuration (name : String) : Command → Option Int := fun cmd =>
  if cmd.IsSet name then some (cmd.DurationVal name) else none

/-- `GetStringSlice` from `flag.go`. -/
def GetStringSlice (name : String) : Command → Option (List String) :=
  fun cmd =>
    if cmd.IsSet name then some (cmd.StringSliceVal name) else none

/-- A non-nil Go error value (the payload behind a non-nil `error`
interface). -/
structure ErrorMsg where
  message : String
deriving DecidableEq, Repr

/-- A Go `error` interface value: `none` is the nil error. -/
abbrev GoError := Option ErrorMsg

/-- The `Either` sum underlying fp-go's `result.Result[A] = Either[error, A]`.
Modelled from the spec's Option/Result collaborator description (the `result`
package is not under `src/`). -/
inductive Either (E A : Type) where
  | left (e : E)
  | right (a : A)
deriving DecidableEq, Repr

/-- fp-go `result.Result[A]`: success or a Go error. -/
abbrev GoResult (A : Type) := Either GoError A

/-- Modelled from the spec: `result.MonadFold` (not under `src/`; `action.go`
calls it) eliminates a `Result` with a handler per side. -/
def MonadFold (ma : Either E A) (onLeft : E → B) (onRight : A → B) : B :=
  match ma with
  | .left e => onLeft e
  | .right a => onRight a

/-- fp-go `ioresult.IOResult[A]`: a lazy computation producing a `Result`.
The thunk (`Unit →`) embeds Go's deferred `func() Result[A]`. -/
abbrev IOResultT (A : Type) := Unit → GoResult A

/-- Modelled from the spec: `ioresult.Of` (not under `src/`) is the lazy
computation that succeeds with the given value. -/
def ioresultOf (a : A) : IOResultT A := fun _ => .right a

/-- Modelled from the spec: `ioresult.Left` (not under `src/`) is the lazy
computation that fails with the given error. -/
def ioresultLeft (e : GoError) : IOResultT A := fun _ => .left e

/-- Modelled from the spec: `ioresult.Map` (not under `src/`; `action.go`
calls it) transforms the success value, leaving a failure untouched. -/
def ioresultMap (f : A → B) (ma : IOResultT A) : IOResultT B := fun u =>
  match ma u with
  | .left e => .left e
  | .right a => .right (f a)

/-- Modelled from the spec: `ioresult.Chain` (not under `src/`; `action.go`
calls it and `action_test.go` pins its behavior): run the first computation;
on success feed the value to the continuation, on failure propagate the error
without consulting the continuation. -/
def ioresultChain (f : A → IOResultT B) (ma : IOResultT A) : IOResultT B :=
  fun u =>
    match ma u with
    | .left e => .left e
    | .right a => f a u

/-- Go `context.Context` as seen by the verified code: never inspected, so an
abstract token suffices. -/
structure Context where
  token : Nat
deriving DecidableEq, Repr

/-- urfave/cli `ActionFunc`: `func(context.Context, *Command) error`. -/
abbrev ActionFunc := Context → Command → GoError

/-- fp-go `IOAction[A]` from `doc.go`:
`func(context.Context, *Command) IOResult[A]`. -/
abbrev IOAction (A : Type) := Context → Command → IOResultT A

/-- Go `function.Void` (the empty struct with exactly one value). -/
abbrev GoVoid := Unit

/-- `F.VOID`, the sole value of `function.Void`. -/
def VOID : GoVoid := ()

/-- `Of` from `action.go`: an IOAction that always succeeds with `a`. -/
def Of (a : A) : IOAction A := fun _ _ => ioresultOf a

/-- `Fail` from `action.go`: an IOAction that always fails with `err`. -/
def Fail (A : Type) (err : GoError) : IOAction A := fun _ _ =>
  ioresultLeft err

/-- `ToActionFunc` from `action.go`: run the IOAction eagerly; a captured
error is returned directly (`F.Identity`), a success is discarded (`nil`). -/
def ToActionFunc (f : IOAction A) : ActionFunc := fun ctx cmd =>
  MonadFold (f ctx cmd ()) id (fun _ => none)

/-- `FromActionFunc` from `action.go`: wrap the ActionFunc call; a non-nil
error becomes `Left`, a nil error becomes `Right VOID`. -/
def FromActionFunc (f : ActionFunc) : IOAction GoVoid := fun ctx cmd =>
  fun _ =>
    match f ctx cmd with
    | some e => .left (some e)
    | none => .right VOID

/-- `Chain` from `action.go`: sequence two IOActions through
`ioresult.Chain`; the continuation receives the success value of the first. -/
def Chain (f : A → IOAction B) (fa : IOAction A) : IOAction B :=
  fun ctx cmd =>
    ioresultChain (fun a => f a ctx cmd) (fa ctx cmd)

/-!
Lens fixtures. The fixture types of the lens test file use Go pointers and
in-place mutating setters (`(*Street).SetName` assigns through the receiver),
so the embedding makes the store explicit: a `Heap` maps addresses (`Ptr`,
plain naturals) to structs, one region per fixture type, with an allocation
counter per region; a Go method is a function over the heap and the receiver
pointer. `MakeLensRef` of `optics/lens` is not under `src/` and is modelled
from the spec.
-/

/-- Fixture struct `Street` from the lens test file. -/
structure Street where
  num : Int
  name : String
deriving DecidableEq, Repr

/-- A Go pointer: an address into the heap region of its type. -/
abbrev Ptr := Nat

/-- Fixture struct `Address` from the lens test file; its `street` field is a
Go pointer (`*Street`). -/
structure Address where
  city : String
  street : Ptr
deriving DecidableEq, Repr

/-- Fixture struct `Inner` from the lens test file. -/
structure Inner where
  Value : Int
  Foo : String
deriving DecidableEq, Repr

/-- The explicit store: one region per fixture type, each a total map from
addresses to structs together with the number of allocated cells (addresses
`< n…` are live; fresh allocations use the next address). -/
structure Heap where
  streets : Nat → Street
  nStreets : Nat
  addresses : Nat → Address
  nAddresses : Nat
  inners : Nat → Inner
  nInners : Nat

/-- Go method `(*Street).GetName`: read `street.name` through the pointer. -/
def Street.GetName (h : Heap) (p : Ptr) : String :=
  (h.streets p).name

/-- Go method `(*Street).SetName`: assign `street.name = name` in place
through the receiver pointer and return the same receiver. -/
def Street.SetName (h : Heap) (p : Ptr) (n : String) : Heap × Ptr :=
  ({ h with streets := Function.update h.streets p { h.streets p with name := n } }, p)

/-- Go method `(*Address).GetStreet`: read the `street` pointer field. -/
def Address.GetStreet (h : Heap) (p : Ptr) : Ptr :=
  (h.addresses p).street

/-- Go method `(*Address).SetStreet`: assign `addr.street = s` in place and
return the same receiver. -/
def Address.SetStreet (h : Heap) (p : Ptr) (s : Ptr) : Heap × Ptr :=
  ({ h with addresses := Function.update h.addresses p { h.addresses p with street := s } }, p)

/-- Go method `(*Inner).GetValue`: read `inner.Value` through the pointer. -/
def Inner.GetValue (h : Heap) (p : Ptr) : Int :=
  (h.inners p).Value

/-- Go method `(*Inner).SetValue`: assign `inner.Value = value` in place and
return the same receiver. -/
def Inner.SetValue (h : Heap) (p : Ptr) (v : Int) : Heap × Ptr :=
  ({ h with inners := Function.update h.inners p { h.inners p with Value := v } }, p)

/-- Pointer primitives of one heap region: dereference (`*s`) and allocation
of a fresh cell holding a given struct (`cpy := *s; &cpy`). -/
structure PtrOps (S : Type) where
  deref : Heap → Ptr → S
  alloc : Heap → S → Heap × Ptr

/-- Pointer primitives of the `Street` region. -/
def streetOps : PtrOps Street where
  deref h p := h.streets p
  alloc h v :=
    ({ h with streets := Function.update h.streets h.nStreets v,
              nStreets := h.nStreets + 1 }, h.nStreets)

/-- Pointer primitives of the `Address` region. -/
def addrOps : PtrOps Address where
  deref h p := h.addresses p
  alloc h v :=
    ({ h with addresses := Function.update h.addresses h.nAddresses v,
              nAddresses := h.nAddresses + 1 }, h.nAddresses)

/-- Pointer primitives of the `Inner` region. -/
def innerOps : PtrOps Inner where
  deref h p := h.inners p
  alloc h v :=
    ({ h with inners := Function.update h.inners h.nInners v,
              nInners := h.nInners + 1 }, h.nInners)

/-- A Lens over heap-dwelling data: fp-go's `Lens[S, A]` pair of `Get` and
`Set`, with the ambient Go store made explicit (reads may consult the heap,
`Set` may also allocate, so it returns the updated heap). -/
structure LensH (S A : Type) where
  get : Heap → S → A
  set : A → Heap → S → Heap × S

/-- Modelled from the spec: `MakeLensRef` of `optics/lens` (not under `src/`).
It adapts a getter method and an in-place mutating setter method into a Lens
whose `set` is strict copy-on-write (§9: "defensively clone before mutating"):
copy the pointed-to struct, allocate the copy as a fresh cell, and run the
mutating setter on the fresh cell. -/
def MakeLensRef (ops : PtrOps S) (get : Heap → Ptr → A)
    (set : Heap → Ptr → A → Heap × Ptr) : LensH Ptr A where
  get := get
  set := fun a h p =>
    let cpy := ops.deref h p
    let r := ops.alloc h cpy
    set r.1 r.2 a

/-- Modelled from the spec: `Compose` of `optics/lens` (§4.1), with the heap
threaded in Go evaluation order: the inner `set` runs first, then the outer
`set` runs in the resulting heap. -/
def LensH.Compose (ab : LensH A B) (sa : LensH S A) : LensH S B where
  get := fun h s => ab.get h (sa.get h s)
  set := fun b h s =>
    let r := ab.set b h (sa.get h s)
    sa.set r.2 r.1 s

/-- `streetLens` from the lens test file:
`MakeLensRef((*Street).GetName, (*Street).SetName)`. -/
def streetLens : LensH Ptr String :=
  MakeLensRef streetOps Street.GetName Street.SetName

/-- `addrLens` from the lens test file:
`MakeLensRef((*Address).GetStreet, (*Address).SetStreet)`. -/
def addrLens : LensH Ptr Ptr :=
  MakeLensRef addrOps Address.GetStreet Address.SetStreet

/-- `valueLens` from the lens test file:
`MakeLensRef((*Inner).GetValue, (*Inner).SetValue)`. -/
def valueLens : LensH Ptr Int :=
  MakeLensRef innerOps Inner.GetValue Inner.SetValue

/-- `streetName` from `TestCompose`:
`L.Compose[*Address](streetLens)(addrLens)`. -/
def streetName : LensH Ptr String :=
  LensH.Compose streetLens addrLens

/-- Deep equality of two `*Street` values (`EQT.Eq[*Street]` compares through
the pointer): the pointed-to structs are equal. -/
def EqStreetRef (h1 : Heap) (p1 : Ptr) (h2 : Heap) (p2 : Ptr) : Prop :=
  h1.streets p1 = h2.streets p2

/-- Deep equality of two `*Address` values: the cities agree and the street
pointers point to equal structs (deep comparison follows the inner pointer). -/
def EqAddrRef (h1 : Heap) (p1 : Ptr) (h2 : Heap) (p2 : Ptr) : Prop :=
  (h1.addresses p1).city = (h2.addresses p2).city ∧
    h1.streets (h1.addresses p1).street = h2.streets (h2.addresses p2).street

/-- Deep equality of two `*Inner` values. -/
def EqInnerRef (h1 : Heap) (p1 : Ptr) (h2 : Heap) (p2 : Ptr) : Prop :=
  h1.inners p1 = h2.inners p2

/-- Heap-independent equality for plain value parts (strings, ints). -/
def EqVal (_ : Heap) (x : A) (_ : Heap) (y : A) : Prop :=
  x = y

/-- The GetSet law instance of a heap Lens at a whole `s`: setting back the
value just read yields a whole equal (under `eqS`) to the original. -/
def LensHGetSet (eqS : Heap → S → Heap → S → Prop) (L : LensH S A)
    (h : Heap) (s : S) : Prop :=
  let r := L.set (L.get h s) h s
  eqS r.1 r.2 h s

/-- The SetGet law instance of a heap Lens: reading right after setting `a`
returns `a` (under `eqA`). -/
def LensHSetGet (eqA : Heap → A → Heap → A → Prop) (L : LensH S A)
    (h : Heap) (s : S) (a : A) : Prop :=
  let r := L.set a h s
  eqA r.1 (L.get r.1 r.2) h a

/-- The SetSet law instance of a heap Lens: setting `a1` then `a2` yields a
whole equal (under `eqS`) to setting only `a2`. -/
def LensHSetSet (eqS : Heap → S → Heap → S → Prop) (L : LensH S A)
    (h : Heap) (s : S) (a1 a2 : A) : Prop :=
  let r1 := L.set a1 h s
  let r2 := L.set a2 r1.1 r1.2
  let r := L.set a2 h s
  eqS r2.1 r2.2 r.1 r.2

/-- The pure Lens of the spec (§3): a pair of a total getter and a total
copy-on-write setter over plain values. This is fp-go's `Lens[S, A]` at value
types, used to state the general composition-closure law. -/
structure Lens (S A : Type) where
  get : S → A
  set : A → S → S

/-- Modelled from the spec: `Compose` for pure Lenses (§4.1):
`get = s ↦ inner.get (outer.get s)` and
`set = b ↦ s ↦ outer.set (inner.set b (outer.get s)) s`. -/
def Lens.Compose (ab : Lens A B) (sa : Lens S A) : Lens S B where
  get := fun s => ab.get (sa.get s)
  set := fun b s => sa.set (ab.set b (sa.get s)) s

/-- The three Lens laws of §4.1 for a pure Lens, quantified over all wholes
and parts. -/
def LawfulLens (L : Lens S A) : Prop :=
  (∀ s, L.set (L.get s) s = s) ∧
    (∀ s a, L.get (L.set a s) = a) ∧
    (∀ s a1 a2, L.set a2 (L.set a1 s) = L.set a2 s)

/-- Value-level counterpart of `Address` (the street held as a struct value,
as deep equality sees it), used to instantiate the pure Lens laws. -/
structure AddressV where
  city : String
  street : Street
deriving DecidableEq, Repr

/-- The observable value-level behavior of `streetLens` on pointees: read the
`name` field, replace the `name` field. -/
def pureStreetLens : Lens Street String where
  get := fun s => s.name
  set := fun a s => { s with name := a }

/-- The observable value-level behavior of `addrLens` on deep values: read the
street, replace the street. -/
def pureAddrLens : Lens AddressV Street where
  get := fun s => s.street
  set := fun a s => { s with street := a }

/-- Fixture `sampleStreet` from the lens test file. -/
def sampleStreet : Street :=
  { num := 220, name := "Schönaicherstr" }

/-- Fixture `sampleStreet2` from the lens test file. -/
def sampleStreet2 : Street :=
  { num := 220, name := "Neue Str" }

/-- A concrete heap holding the fixtures: `sampleStreet` at street address 0,
`sampleStreet2` at street address 1, `sampleAddress` (city `Böblingen`,
street pointer 0) at address 0, and `defaultInner` at inner address 0. -/
def sampleHeap : Heap where
  streets :=
    Function.update
      (Function.update (fun _ => { num := 0, name := "" }) 0 sampleStreet)
      1 sampleStreet2
  nStreets := 2
  addresses :=
    Function.update (fun _ => { city := "", street := 0 }) 0
      { city := "Böblingen", street := 0 }
  nAddresses := 1
  inners :=
    Function.update (fun _ => { Value := 0, Foo := "" }) 0
      { Value := -1, Foo := "foo" }
  nInners := 1

/-- A concrete `Command` with no flag set, used to instantiate theorems at a
concrete input. -/
def emptyCommand : Command where
  IsSet := fun _ => false
  StringVal := fun _ => ""
  BoolVal := fun _ => false
  IntVal := fun _ => 0
  Int64Val := fun _ => 0
  Float64Val := fun _ => ⟨0⟩
  DurationVal := fun _ => 0
  StringSliceVal := fun _ => []

/-- Claim C1: for every Prism produced by the flag-variant constructors
(`AsString`, `AsBool`, `AsInt`, `AsInt64`, `AsFloat64`, `AsDuration`,
`AsStringSlice`) and every part value `a` of the focused type,
`getOption (reverseGet a)` equals `Some a`. -/
theorem prism_construct_then_inspect_roundtrip :
    (∀ a : String, AsString.getOption (AsString.reverseGet a) = some a) ∧
    (∀ a : Bool, AsBool.getOption (AsBool.reverseGet a) = some a) ∧
    (∀ a : Int, AsInt.getOption (AsInt.reverseGet a) = some a) ∧
    (∀ a : Int, AsInt64.getOption (AsInt64.reverseGet a) = some a) ∧
    (∀ a : Float64Bits,
      AsFloat64.getOption (AsFloat64.reverseGet a) = some a) ∧
    (∀ a : Int, AsDuration.getOption (AsDuration.reverseGet a) = some a) ∧
    (∀ a : List String,
      AsStringSlice.getOption (AsStringSlice.reverseGet a) = some a) :=
  ⟨fun _ => rfl, fun _ => rfl, fun _ => rfl, fun _ => rfl, fun _ => rfl,
   fun _ => rfl, fun _ => rfl⟩

/-- Claim C2: each flag Prism, applied to a `Flag` whose runtime variant does
not match its focused type, returns the absent Option variant. `getOption` is
a total Lean function over the whole `Flag` sum, so it cannot raise or panic
on any input. -/
theorem prism_type_rejection (f : Flag) :
    (f.variant ≠ .str → AsString.getOption f = none) ∧
    (f.variant ≠ .boolean → AsBool.getOption f = none) ∧
    (f.variant ≠ .int → AsInt.getOption f = none) ∧
    (f.variant ≠ .int64 → AsInt64.getOption f = none) ∧
    (f.variant ≠ .float64 → AsFloat64.getOption f = none) ∧
    (f.variant ≠ .duration → AsDuration.getOption f = none) ∧
    (f.variant ≠ .strSlice → AsStringSlice.getOption f = none) := by
  cases f <;>
    simp [Flag.variant, AsString, AsBool, AsInt, AsInt64, AsFloat64,
      AsDuration, AsStringSlice, MakePrismWithName, Flag.Get]

/-- Witness for C2: concrete mismatched applications, one per prism (the
string prism on a bool flag, the bool prism on a string flag, and so on). -/
theorem prism_type_rejection_witness :
    AsString.getOption (Flag.boolFlag "verbose" false) = none ∧
    AsBool.getOption (Flag.stringFlag "name" "world") = none ∧
    AsInt.getOption (Flag.int64Flag "offset" 0) = none ∧
    AsInt64.getOption (Flag.intFlag "count" 0) = none ∧
    AsFloat64.getOption (Flag.stringFlag "rate" "") = none ∧
    AsDuration.getOption (Flag.intFlag "timeout" 5) = none ∧
    AsStringSlice.getOption (Flag.stringFlag "tag" "a") = none :=
  ⟨(prism_type_rejection _).1 (by decide),
   (prism_type_rejection _).2.1 (by decide),
   (prism_type_rejection _).2.2.1 (by decide),
   (prism_type_rejection _).2.2.2.1 (by decide),
   (prism_type_rejection _).2.2.2.2.1 (by decide),
   (prism_type_rejection _).2.2.2.2.2.1 (by decide),
   (prism_type_rejection _).2.2.2.2.2.2 (by decide)⟩

/-- Claim C3: `set` never mutates the original whole, even though the fixture
setters assign in place: for `streetLens` the struct at the original street
address is unchanged; for `addrLens` the struct at the original address is
unchanged and no street cell (in particular the one the part `a` points to)
changes; for the composed `streetName` lens the original address struct and
every live street cell are unchanged. -/
theorem lens_set_preserves_original :
    (∀ h p a, p < h.nStreets →
      (streetLens.set a h p).1.streets p = h.streets p) ∧
    (∀ h p a, p < h.nAddresses →
      ((addrLens.set a h p).1.addresses p = h.addresses p) ∧
      (∀ q, (addrLens.set a h p).1.streets q = h.streets q)) ∧
    (∀ h p a, p < h.nAddresses →
      ((streetName.set a h p).1.addresses p = h.addresses p) ∧
      (∀ q, q < h.nStreets →
        (streetName.set a h p).1.streets q = h.streets q)) := by
  refine ⟨fun h p a hp => ?_, fun h p a hp => ⟨?_, fun q => ?_⟩,
    fun h p a hp => ⟨?_, fun q hq => ?_⟩⟩
  · simp [streetLens, MakeLensRef, streetOps, Street.GetName, Street.SetName,
      Function.update_apply, Nat.ne_of_lt hp]
  · simp [addrLens, MakeLensRef, addrOps, Address.GetStreet,
      Address.SetStreet, Function.update_apply, Nat.ne_of_lt hp]
  · simp [addrLens, MakeLensRef, addrOps, Address.GetStreet,
      Address.SetStreet, Function.update_apply]
  · simp [streetName, LensH.Compose, streetLens, addrLens, MakeLensRef,
      streetOps, addrOps, Street.GetName, Street.SetName, Address.GetStreet,
      Address.SetStreet, Function.update_apply, Nat.ne_of_lt hp]
  · simp [streetName, LensH.Compose, streetLens, addrLens, MakeLensRef,
      streetOps, addrOps, Street.GetName, Street.SetName, Address.GetStreet,
      Address.SetStreet, Function.update_apply, Nat.ne_of_lt hq]

/-- Witness for C3: the three parts applied in the sample heap (street 0 is
`sampleStreet`, address 0 is the Böblingen address), with the validity
hypotheses evaluated. -/
theorem lens_set_preserves_original_witness :
    (0 < sampleHeap.nStreets ∧
      (streetLens.set "Neue Str." sampleHeap 0).1.streets 0 =
        sampleHeap.streets 0) ∧
    (0 < sampleHeap.nAddresses ∧
      (addrLens.set 1 sampleHeap 0).1.addresses 0 = sampleHeap.addresses 0 ∧
      (addrLens.set 1 sampleHeap 0).1.streets 1 = sampleHeap.streets 1) ∧
    (0 < sampleHeap.nAddresses ∧
      (streetName.set "Neue Str." sampleHeap 0).1.addresses 0 =
        sampleHeap.addresses 0 ∧
      (streetName.set "Neue Str." sampleHeap 0).1.streets 0 =
        sampleHeap.streets 0) :=
  ⟨⟨by decide,
    lens_set_preserves_original.1 sampleHeap 0 "Neue Str." (by decide)⟩,
   ⟨by decide,
    (lens_set_preserves_original.2.1 sampleHeap 0 1 (by decide)).1,
    (lens_set_preserves_original.2.1 sampleHeap 0 1 (by decide)).2 1⟩,
   ⟨by decide,
    (lens_set_preserves_original.2.2 sampleHeap 0 "Neue Str." (by decide)).1,
    (lens_set_preserves_original.2.2 sampleHeap 0 "Neue Str."
      (by decide)).2 0 (by decide)⟩⟩

/-- Claim C4: the GetSet law for the three constructed lenses: setting back
the value just read yields a whole that is equal, under the whole type's
(deep) equality, to the original. -/
theorem lens_getset_law :
    (∀ h p, LensHGetSet EqStreetRef streetLens h p) ∧
    (∀ h p, LensHGetSet EqAddrRef addrLens h p) ∧
    (∀ h p, LensHGetSet EqInnerRef valueLens h p) := by
  refine ⟨fun h p => ?_, fun h p => ?_, fun h p => ?_⟩ <;>
    simp [LensHGetSet, EqStreetRef, EqAddrRef, EqInnerRef, streetLens,
      addrLens, valueLens, MakeLensRef, streetOps, addrOps, innerOps,
      Street.GetName, Street.SetName, Address.GetStreet, Address.SetStreet,
      Inner.GetValue, Inner.SetValue, Function.update_apply]

/-- Claim C5: the SetGet law for the three constructed lenses: reading right
after setting returns the value that was set, under the part type's
equality. -/
theorem lens_setget_law :
    (∀ h p a, LensHSetGet EqVal streetLens h p a) ∧
    (∀ h p a, LensHSetGet EqStreetRef addrLens h p a) ∧
    (∀ h p a, LensHSetGet EqVal valueLens h p a) := by
  refine ⟨fun h p a => ?_, fun h p a => ?_, fun h p a => ?_⟩ <;>
    simp [LensHSetGet, EqVal, EqStreetRef, streetLens, addrLens, valueLens,
      MakeLensRef, streetOps, addrOps, innerOps, Street.GetName,
      Street.SetName, Address.GetStreet, Address.SetStreet, Inner.GetValue,
      Inner.SetValue, Function.update_apply]

/-- Claim C6: the SetSet law for the three constructed lenses: setting twice
is equal, under the whole type's (deep) equality, to setting only the last
value. -/
theorem lens_setset_law :
    (∀ h p a1 a2, LensHSetSet EqStreetRef streetLens h p a1 a2) ∧
    (∀ h p a1 a2, LensHSetSet EqAddrRef addrLens h p a1 a2) ∧
    (∀ h p a1 a2, LensHSetSet EqInnerRef valueLens h p a1 a2) := by
  refine ⟨fun h p a1 a2 => ?_, fun h p a1 a2 => ?_, fun h p a1 a2 => ?_⟩ <;>
    simp [LensHSetSet, EqStreetRef, EqAddrRef, EqInnerRef, streetLens,
      addrLens, valueLens, MakeLensRef, streetOps, addrOps, innerOps,
      Street.GetName, Street.SetName, Address.GetStreet, Address.SetStreet,
      Inner.GetValue, Inner.SetValue, Function.update_apply]

/-- Claim C7: composition closure. First part: for any two pure Lenses that
each satisfy the three Lens laws, the composed Lens satisfies all three.
Second through fourth parts: the concrete composed Address-to-street-name
lens `streetName` (built from `addrLens` and `streetLens`) satisfies the
three laws in the heap model, under the deep equality of the test
harness. -/
theorem lens_compose_closure :
    (∀ (S A B : Type) (sa : Lens S A) (ab : Lens A B),
      LawfulLens sa → LawfulLens ab → LawfulLens (Lens.Compose ab sa)) ∧
    (∀ h p, LensHGetSet EqAddrRef streetName h p) ∧
    (∀ h p a, LensHSetGet EqVal streetName h p a) ∧
    (∀ h p a1 a2, LensHSetSet EqAddrRef streetName h p a1 a2) := by
  refine ⟨?_, fun h p => ?_, fun h p a => ?_, fun h p a1 a2 => ?_⟩
  · rintro S A B sa ab ⟨gs1, sg1, ss1⟩ ⟨gs2, sg2, ss2⟩
    refine ⟨fun s => ?_, fun s b => ?_, fun s b1 b2 => ?_⟩
    · show sa.set (ab.set (ab.get (sa.get s)) (sa.get s)) s = s
      rw [gs2, gs1]
    · show ab.get (sa.get (sa.set (ab.set b (sa.get s)) s)) = b
      rw [sg1, sg2]
    · show sa.set (ab.set b2 (sa.get (sa.set (ab.set b1 (sa.get s)) s)))
          (sa.set (ab.set b1 (sa.get s)) s) = sa.set (ab.set b2 (sa.get s)) s
      rw [sg1, ss2, ss1]
  all_goals
    simp [LensHGetSet, LensHSetGet, LensHSetSet, EqAddrRef, EqVal,
      streetName, LensH.Compose, streetLens, addrLens, MakeLensRef,
      streetOps, addrOps, Street.GetName, Street.SetName, Address.GetStreet,
      Address.SetStreet, Function.update_apply]

/-- Witness for C7: the lawfulness hypotheses hold for the value-level street
and address lenses, and the closure theorem then yields lawfulness of their
composite. -/
theorem lens_compose_closure_witness :
    LawfulLens pureAddrLens ∧ LawfulLens pureStreetLens ∧
      LawfulLens (Lens.Compose pureStreetLens pureAddrLens) := by
  have hsa : LawfulLens pureAddrLens :=
    ⟨fun _ => rfl, fun _ _ => rfl, fun _ _ _ => rfl⟩
  have hab : LawfulLens pureStreetLens :=
    ⟨fun _ => rfl, fun _ _ => rfl, fun _ _ _ => rfl⟩
  exact ⟨hsa, hab,
    lens_compose_closure.1 AddressV Street String pureAddrLens pureStreetLens
      hsa hab⟩

/-- Claim C8: promoting a urfave/cli ActionFunc to an IOAction and converting
back yields exactly the same error value at every context and command: a
non-nil error passes through unchanged and a nil error yields nil. -/
theorem actionfunc_roundtrip (f : ActionFunc) (ctx : Context)
    (cmd : Command) :
    ToActionFunc (FromActionFunc f) ctx cmd = f ctx cmd := by
  unfold ToActionFunc FromActionFunc MonadFold
  cases f ctx cmd <;> rfl

/-- Claim C9: each optional flag getter returns `some` of the flag's current
value exactly when `cmd.IsSet name` is true, and `none` exactly when it is
false — in particular a flag that merely carries a default is reported
absent. -/
theorem optional_getters_absent_vs_default (name : String) (cmd : Command) :
    (∀ a, GetString name cmd = some a ↔
      cmd.IsSet name = true ∧ a = cmd.StringVal name) ∧
    (GetString name cmd = none ↔ cmd.IsSet name = false) ∧
    (∀ a, GetBool name cmd = some a ↔
      cmd.IsSet name = true ∧ a = cmd.BoolVal name) ∧
    (GetBool name cmd = none ↔ cmd.IsSet name = false) ∧
    (∀ a, GetInt name cmd = some a ↔
      cmd.IsSet name = true ∧ a = cmd.IntVal name) ∧
    (GetInt name cmd = none ↔ cmd.IsSet name = false) ∧
    (∀ a, GetInt64 name cmd = some a ↔
      cmd.IsSet name = true ∧ a = cmd.Int64Val name) ∧
    (GetInt64 name cmd = none ↔ cmd.IsSet name = false) ∧
    (∀ a, GetFloat64 name cmd = some a ↔
      cmd.IsSet name = true ∧ a = cmd.Float64Val name) ∧
    (GetFloat64 name cmd = none ↔ cmd.IsSet name = false) ∧
    (∀ a, GetDuration name cmd = some a ↔
      cmd.IsSet name = true ∧ a = cmd.DurationVal name) ∧
    (GetDuration name cmd = none ↔ cmd.IsSet name = false) ∧
    (∀ a, GetStringSlice name cmd = some a ↔
      cmd.IsSet name = true ∧ a = cmd.StringSliceVal name) ∧
    (GetStringSlice name cmd = none ↔ cmd.IsSet name = false) := by
  cases hset : cmd.IsSet name <;>
    simp [GetString, GetBool, GetInt, GetInt64, GetFloat64, GetDuration,
      GetStringSlice, hset, eq_comm]

/-- Claim C10: when the first IOAction fails, the chained action fails with
the very same error at every context and command, and the result does not
depend on the continuation at all (the continuation is observationally never
invoked). -/
theorem chain_short_circuits (A B : Type) (fa : IOAction A) (ctx : Context)
    (cmd : Command) (err : GoError)
    (hfail : fa ctx cmd () = .left err) :
    (∀ f : A → IOAction B, Chain f fa ctx cmd () = .left err) ∧
    (∀ f g : A → IOAction B, Chain f fa ctx cmd = Chain g fa ctx cmd) := by
  constructor
  · intro f
    simp [Chain, ioresultChain, hfail]
  · intro f g
    funext u
    cases u
    simp [Chain, ioresultChain, hfail]

/-- Witness for C10: `Fail` produces a failing IOAction, and chaining a
concrete continuation onto it yields the same error. -/
theorem chain_short_circuits_witness :
    Fail Int (some (ErrorMsg.mk "abort")) (Context.mk 0) emptyCommand () =
      Either.left (some (ErrorMsg.mk "abort")) ∧
    Chain (fun n => Of (n + 1)) (Fail Int (some (ErrorMsg.mk "abort")))
        (Context.mk 0) emptyCommand () =
      Either.left (some (ErrorMsg.mk "abort")) :=
  ⟨rfl,
   (chain_short_circuits Int Int (Fail Int (some (ErrorMsg.mk "abort")))
      (Context.mk 0) emptyCommand (some (ErrorMsg.mk "abort")) rfl).1 _⟩

end FpGo
